import Mathlib

set_option maxRecDepth 4000

set_option maxHeartbeats 1000000

/-!
Formal model of the Range/Grid trading bot (`grid_bot.py`).

Modelling conventions:

* Prices and quantities are exact rationals (`ℚ`).  For the one property whose
  truth depends on IEEE-754 binary64 rounding, an explicit round-to-nearest-even
  model `fl53` is provided and used alongside the exact-arithmetic definitions.
* `Decimal(x).quantize(Decimal("0.01"), rounding=ROUND_DOWN)` is truncation
  toward zero at a grid of cents (`truncTowardZero 100`), and likewise for the
  `0.000001` quantity increment.
* A remote order is a record of exactly the fields the bot reads.  A missing or
  unparseable numeric field is `none`; a missing correlation id is the empty
  string (Python falsiness of `None` and `""` coincide for every check the bot
  performs).
* Each `ensure_*` function is modelled as a function returning the list of
  orders it submits during one round; the open-order set visible to the next
  round is the previous set plus those submissions.
-/

/-- Truncation of `x` toward zero to a multiple of `1/d`; models
`Decimal.quantize(..., rounding=ROUND_DOWN)` at increment `1/d`.  (`mkRat` is
used rather than cast-and-divide so that the definition evaluates cheaply;
`truncTowardZero_eq` restates it in cast form.) -/
def truncTowardZero (d : ℕ) (x : ℚ) : ℚ :=
  if 0 ≤ x then mkRat ⌊x * mkRat d 1⌋ d else mkRat ⌈x * mkRat d 1⌉ d

/-- Model of `round_price` (grid_bot.py, line 116): truncate to the `0.01`
price increment. -/
def roundPrice (p : ℚ) : ℚ := truncTowardZero 100 p

/-- Model of `round_qty` (grid_bot.py, line 119): truncate to the `0.000001`
quantity increment. -/
def roundQty (q : ℚ) : ℚ := truncTowardZero 1000000 q

/-- One scanning step of Python `str.split(sep)` over character lists.  The
`skip` counter holds the number of separator characters still to be consumed
after a match (matches are non-overlapping, found left to right). -/
def pySplitCore (sep : List Char) : List Char → ℕ → List Char → List (List Char)
  | [], _, acc => [acc.reverse]
  | _ :: rest, skip + 1, acc => pySplitCore sep rest skip acc
  | c :: rest, 0, acc =>
    if sep.isPrefixOf (c :: rest) then
      acc.reverse :: pySplitCore sep rest (sep.length - 1) []
    else
      pySplitCore sep rest 0 (c :: acc)

/-- Python `s.split(sep)` for nonempty `sep`; the result is never empty. -/
def pySplit (s sep : String) : List String :=
  (pySplitCore sep.toList s.toList 0 []).map String.mk

/-- Key extraction in `list_open_tp_orders` (grid_bot.py, line 206):
`o.client_order_id.split("GRIDTP-")[-1]`. -/
def tpKey (cid : String) : String := (pySplit cid ("GRIDTP-")).getLastD ("")

/-- Python `s.startswith(pre)`. -/
def pyStartsWith (s pre : String) : Bool := pre.toList.isPrefixOf s.toList

/-- Python `s.lower()` (ASCII is all the bot compares). -/
def pyLower (s : String) : String := String.mk (s.toList.map Char.toLower)

/-- Python `f"{x:.2f}"` for a value that is already a multiple of `0.01` —
the only use in the bot is formatting `round_price(p)`. -/
def fmt2 (q : ℚ) : String :=
  (if ⌊q * 100⌋ < 0 then "-" else "") ++ toString ((⌊q * 100⌋ : ℤ).natAbs / 100) ++ "." ++
    (if (⌊q * 100⌋ : ℤ).natAbs % 100 < 10 then "0" else "") ++
    toString ((⌊q * 100⌋ : ℤ).natAbs % 100)

/-- Order side. -/
inductive Side
  | buy
  | sell
deriving DecidableEq, Repr

/-- The fields of a remote open order that the bot reads. -/
structure RemoteOrder where
  side : Side
  limitPrice : Option ℚ
  clientOrderId : String
  qty : ℚ
deriving DecidableEq, Repr

/-- The fields of a remote closed order that `ensure_tp_after_fills` reads.
A `none` numeric field models Python `None` (or a `float(...)` parse failure). -/
structure ClosedOrder where
  clientOrderId : String
  status : String
  filledQty : Option ℚ
  filledAvgPrice : Option ℚ
deriving DecidableEq, Repr

/-- Model of `build_price_grid` (grid_bot.py, lines 259-265).  `sorted(set(..))`
is deduplication followed by an ascending sort. -/
def buildPriceGrid (low high : ℚ) (levels : ℤ) : List ℚ :=
  if levels < 2 then [roundPrice low, roundPrice high]
  else
    List.insertionSort (· ≤ ·)
      (((List.range (levels.toNat + 1)).map
        (fun i : ℕ => roundPrice (low + (i : ℚ) * ((high - low) / (levels : ℚ))))).dedup)

/-- Correlation id minted for a grid buy (line 290):
`f"GRIDBUY-{round_price(p):.2f}"`. -/
def gridBuyCid (p : ℚ) : String := "GRIDBUY-" ++ fmt2 (roundPrice p)

/-- Model of `submit_limit_buy` (lines 212-226): the submitted order as it
subsequently appears among the remote open orders. -/
def submitLimitBuy (qty price : ℚ) (cid : String) : RemoteOrder :=
  { side := Side.buy, limitPrice := some (roundPrice price), clientOrderId := cid,
    qty := roundQty qty }

/-- Model of `submit_limit_sell` (lines 228-241). -/
def submitLimitSell (qty price : ℚ) (cid : String) : RemoteOrder :=
  { side := Side.sell, limitPrice := some (roundPrice price), clientOrderId := cid,
    qty := roundQty qty }

/-- The duplicate test of `ensure_buy_grid` (lines 277-292): a wanted level is
already covered when some open buy has the same price within one `0.01`
increment (`same_price`) or the same correlation id. -/
def matchedBy (existingPrices : List ℚ) (existingCids : List String) (p : ℚ) : Prop :=
  (∃ ep ∈ existingPrices, |p - ep| ≤ 1/100) ∨ gridBuyCid p ∈ existingCids

instance (eP : List ℚ) (eC : List String) (p : ℚ) : Decidable (matchedBy eP eC p) := by
  unfold matchedBy; infer_instance

/-- The placement loop of `ensure_buy_grid` (lines 288-297), returning the
submitted orders; `nOpen` is `len(open_buys)` and `created` the Python
counter (the loop breaks when `len(open_buys) + created >= max_open`). -/
def buyLoop (qty : ℚ) (eP : List ℚ) (eC : List String) (nOpen : ℕ) (maxOpen : ℤ) :
    List ℚ → ℕ → List RemoteOrder
  | [], _ => []
  | p :: rest, created =>
    if matchedBy eP eC p then buyLoop qty eP eC nOpen maxOpen rest created
    else if maxOpen ≤ (nOpen : ℤ) + created then []
    else submitLimitBuy qty p (gridBuyCid p) :: buyLoop qty eP eC nOpen maxOpen rest (created + 1)

/-- Model of `ensure_buy_grid` (lines 267-300): the buy orders submitted in one
invocation given the remote open orders `oo`.  `gridLow`, `gridHigh` are the
configured range globals used for the midpoint filter on line 270. -/
def ensureBuyGrid (gridLow gridHigh : ℚ) (gridPrices : List ℚ) (qtyPerLevel : ℚ)
    (maxOpen : ℤ) (oo : List RemoteOrder) : List RemoteOrder :=
  let wants := gridPrices.filter (fun p => decide (p < (gridLow + gridHigh) / 2))
  let openBuys := oo.filter (fun o => decide (o.side = Side.buy))
  if maxOpen ≤ (openBuys.length : ℤ) then []
  else
    buyLoop qtyPerLevel (openBuys.filterMap (fun o => o.limitPrice))
      ((openBuys.map (fun o => o.clientOrderId)).filter (fun c => decide (c ≠ "")))
      openBuys.length maxOpen wants 0

/-- The levels one `ensure_buy_grid` round is supposed to place: wanted levels
(strictly below the range midpoint, line 270) with no matching open buy
(price within one increment, or identical correlation id). -/
def eligibleLevels (gridLow gridHigh : ℚ) (gridPrices : List ℚ)
    (oo : List RemoteOrder) : List ℚ :=
  let openBuys := oo.filter (fun o => decide (o.side = Side.buy))
  (gridPrices.filter (fun p => decide (p < (gridLow + gridHigh) / 2))).filter
    (fun p => decide (¬ matchedBy (openBuys.filterMap (fun o => o.limitPrice))
      ((openBuys.map (fun o => o.clientOrderId)).filter (fun c => decide (c ≠ ""))) p))

/-- Model of `list_filled_grid_buys` (lines 186-198): closed orders carrying a
`GRIDBUY-` correlation id whose filled average price is present
(`str(o.filled_avg_price) != "None"`). -/
def listFilledGridBuys (closed : List ClosedOrder) : List ClosedOrder :=
  closed.filter (fun o =>
    decide (o.clientOrderId ≠ "") && pyStartsWith o.clientOrderId ("GRIDBUY-") &&
      o.filledAvgPrice.isSome)

/-- Model of `list_open_tp_orders` (lines 200-210): the entries the Python dict
is built from, in order (`key = cid.split("GRIDTP-")[-1]`; a zero or missing
limit price maps to `None`). -/
def listOpenTpOrders (oo : List RemoteOrder) : List (String × Option ℚ) :=
  (oo.filter (fun o =>
      decide (o.clientOrderId ≠ "") && pyStartsWith o.clientOrderId ("GRIDTP-"))).map
    (fun o => (tpKey o.clientOrderId, if o.limitPrice.getD 0 ≠ 0 then o.limitPrice else none))

/-- The key set of the `list_open_tp_orders` dict, listed one per open TP
order (membership agrees with Python `buy_cid in open_tp_map`). -/
def openTpKeys (oo : List RemoteOrder) : List String := (listOpenTpOrders oo).map Prod.fst

/-- Take-profit price (line 328) in exact rational arithmetic:
`round_price(fill_price * (1.0 + tp_pct / 100.0))`. -/
def tpPrice (fillPrice tpPct : ℚ) : ℚ := roundPrice (fillPrice * (1 + tpPct / 100))

/-- One iteration of the `ensure_tp_after_fills` loop (lines 311-331): the TP
sell submitted for the filled buy `o`, if any. -/
def tpForFill (tpPct : ℚ) (openTpMapKeys : List String) (o : ClosedOrder) :
    Option RemoteOrder :=
  if o.clientOrderId = "" ∨ o.clientOrderId ∈ openTpMapKeys then none
  else if ¬ (pyLower o.status ∈ ["filled", "partially_filled", "closed"]) then none
  else
    match o.filledQty, o.filledAvgPrice with
    | some qty, some fillPrice =>
      if qty ≤ 0 ∨ fillPrice ≤ 0 then none
      else some (submitLimitSell qty (tpPrice fillPrice tpPct) ("GRIDTP-" ++ o.clientOrderId))
    | _, _ => none

/-- Model of `ensure_tp_after_fills` (lines 302-334): the TP sells submitted in
one invocation given the remote closed orders and open orders. -/
def ensureTpAfterFills (tpPct : ℚ) (closed : List ClosedOrder) (oo : List RemoteOrder) :
    List RemoteOrder :=
  if (listFilledGridBuys closed).isEmpty then []
  else (listFilledGridBuys closed).filterMap (tpForFill tpPct (openTpKeys oo))

/-- Iterated invocations of `ensure_tp_after_fills` over one fixed set of
closed orders: each round's submissions are open orders for the next round. -/
def tpRounds (tpPct : ℚ) (closed : List ClosedOrder) : ℕ → List RemoteOrder → List RemoteOrder
  | 0, s => s
  | n + 1, s => tpRounds tpPct closed n (s ++ ensureTpAfterFills tpPct closed s)

/-- The startup configuration values read by the pre-loop code
(`getenv_str` maps a missing or blank variable to `""`). -/
structure Config where
  apcaApiKeyId : String
  apcaApiSecretKey : String
  gridLow : ℚ
  gridHigh : ℚ
  gridLevels : ℤ
deriving DecidableEq, Repr

/-- Model of the only startup validation executed before the trading loop
(lines 123-124): the credential check.  No other configuration value is
validated at startup. -/
def startupCheck (c : Config) : Except String Unit :=
  if c.apcaApiKeyId = "" ∨ c.apcaApiSecretKey = "" then
    Except.error ("Missing Alpaca API keys (APCA_API_KEY_ID / APCA_API_SECRET_KEY).")
  else Except.ok ()

/-- Total notional (price times quantity) of a list of submitted orders. -/
def totalNotional (orders : List RemoteOrder) : ℚ :=
  (orders.map (fun o => o.limitPrice.getD 0 * o.qty)).sum

/-- Fueled `⌊log₂ x⌋` for `1 ≤ x` (repeated halving). -/
def ilog2Up : ℕ → ℚ → ℤ
  | 0, _ => 0
  | fuel + 1, x => if 2 ≤ x then ilog2Up fuel (x / 2) + 1 else 0

/-- Fueled `⌊log₂ x⌋` for `0 < x < 1` (repeated doubling). -/
def ilog2Down : ℕ → ℚ → ℤ
  | 0, _ => 0
  | fuel + 1, x => if x < 1 then ilog2Down fuel (x * 2) - 1 else 0

/-- Floor of the base-two logarithm of a positive `x` in the binary64 normal
range. -/
def exp2Floor (x : ℚ) : ℤ := if 1 ≤ x then ilog2Up 300 x else ilog2Down 300 x

/-- Two to an integer power, as a rational. -/
def pow2 (n : ℤ) : ℚ :=
  if 0 ≤ n then mkRat (2 ^ n.toNat : ℕ) 1 else mkRat 1 (2 ^ (-n).toNat)

/-- The rounded 53-bit significand of a positive rational `s` scaled into
`[2^52, 2^53)`: round to nearest, ties to even. -/
def sig53 (s : ℚ) : ℤ :=
  if s - mkRat ⌊s⌋ 1 < mkRat 1 2 then ⌊s⌋
  else if mkRat 1 2 < s - mkRat ⌊s⌋ 1 then ⌊s⌋ + 1
  else if ⌊s⌋ % 2 = 0 then ⌊s⌋ else ⌊s⌋ + 1

/-- Round a rational to the nearest IEEE-754 binary64 value (53-bit
significand, round to nearest, ties to even), for values in the normal range:
the value a correctly rounded Python float operation returns. -/
def fl53 (x : ℚ) : ℚ :=
  if x = 0 then 0
  else
    (if x < 0 then -1 else 1) *
      mkRat (sig53 (|x| * pow2 (52 - exp2Floor |x|))) 1 * pow2 (exp2Floor |x| - 52)

/-- The take-profit price as the float expression on line 328 computes it in
binary64 arithmetic: `tp_pct / 100.0`, `1.0 + _` and `fill_price * _` are each
correctly rounded, then the result is truncated to cents.  `fillPrice` and
`tpPct` are taken exactly representable (true of `4000.0` and `0.5`). -/
def tpPriceFloat (fillPrice tpPct : ℚ) : ℚ :=
  roundPrice (fl53 (fillPrice * fl53 (1 + fl53 (tpPct / 100))))

/-- Demo configuration: credentials present, inverted (degenerate) range. -/
def demoDegenerateConfig : Config :=
  { apcaApiKeyId := "key", apcaApiSecretKey := "secret",
    gridLow := 4400, gridHigh := 4000, gridLevels := 10 }

/-- Demo configuration: blank API key. -/
def demoMissingKeyConfig : Config :=
  { apcaApiKeyId := "", apcaApiSecretKey := "secret",
    gridLow := 4000, gridHigh := 4400, gridLevels := 10 }

/-- Demo remote open order: a grid buy resting at 4300. -/
def demoOpenBuy4300 : RemoteOrder :=
  { side := Side.buy, limitPrice := some 4300, clientOrderId := "GRIDBUY-4300.00",
    qty := 1/100 }

/-- Demo remote closed order: a filled grid buy at price 4000, quantity 0.01. -/
def demoFilledBuy : ClosedOrder :=
  { clientOrderId := "GRIDBUY-4000.00", status := "filled",
    filledQty := some (1/100), filledAvgPrice := some 4000 }


lemma mkRat_int_one (k : ℤ) : mkRat k 1 = (k : ℚ) := by
  rw [Rat.mkRat_eq_div]; norm_num

lemma truncTowardZero_eq (d : ℕ) (x : ℚ) :
    truncTowardZero d x = if 0 ≤ x then (⌊x * d⌋ : ℚ) / d else (⌈x * d⌉ : ℚ) / d := by
  rw [truncTowardZero, mkRat_int_one, Rat.mkRat_eq_div, Rat.mkRat_eq_div]
  split <;> norm_cast

lemma truncTowardZero_le {d : ℕ} (hd : 0 < d) {x : ℚ} (hx : 0 ≤ x) :
    truncTowardZero d x ≤ x := by
  have hdq : (0 : ℚ) < d := by exact_mod_cast hd
  rw [truncTowardZero_eq, if_pos hx, div_le_iff₀ hdq]
  exact Int.floor_le (x * d)

lemma sub_lt_truncTowardZero {d : ℕ} (hd : 0 < d) {x : ℚ} (hx : 0 ≤ x) :
    x - 1 / d < truncTowardZero d x := by
  have hdq : (0 : ℚ) < d := by exact_mod_cast hd
  rw [truncTowardZero_eq, if_pos hx, lt_div_iff₀ hdq, sub_mul, div_mul_cancel₀ _ (ne_of_gt hdq)]
  exact Int.sub_one_lt_floor (x * d)

lemma abs_sub_truncTowardZero_lt {d : ℕ} (hd : 0 < d) (x : ℚ) :
    |x - truncTowardZero d x| < 1 / d := by
  have hdq : (0 : ℚ) < d := by exact_mod_cast hd
  rcases le_or_lt 0 x with hx | hx
  · have h1 := truncTowardZero_le hd hx
    have h2 := sub_lt_truncTowardZero hd hx
    rw [abs_of_nonneg (by linarith)]
    linarith
  · have hx' : ¬ (0 : ℚ) ≤ x := not_le.mpr hx
    rw [truncTowardZero_eq, if_neg hx']
    have h1 : x * d ≤ (⌈x * d⌉ : ℚ) := Int.le_ceil (x * d)
    have h2 : (⌈x * d⌉ : ℚ) < x * d + 1 := Int.ceil_lt_add_one (x * d)
    have h3 : x ≤ (⌈x * d⌉ : ℚ) / d := by
      rw [le_div_iff₀ hdq]; exact h1
    have h4 : (⌈x * d⌉ : ℚ) / d < x + 1 / d := by
      rw [div_lt_iff₀ hdq, add_mul, div_mul_cancel₀ _ (ne_of_gt hdq)]; exact h2
    rw [abs_of_nonpos (by linarith)]
    linarith

lemma truncTowardZero_intCast_div (k : ℤ) {d : ℕ} (hd : 0 < d) :
    truncTowardZero d ((k : ℚ) / d) = (k : ℚ) / d := by
  have hdq : (0 : ℚ) < d := by exact_mod_cast hd
  have hmul : ((k : ℚ) / d) * d = (k : ℚ) := div_mul_cancel₀ _ (ne_of_gt hdq)
  rw [truncTowardZero_eq]
  split
  · rw [hmul, Int.floor_intCast]
  · rw [hmul, Int.ceil_intCast]

lemma truncTowardZero_eq_intCast_div {d : ℕ} (x : ℚ) :
    ∃ k : ℤ, truncTowardZero d x = (k : ℚ) / d := by
  rw [truncTowardZero_eq]
  split
  · exact ⟨⌊x * d⌋, rfl⟩
  · exact ⟨⌈x * d⌉, rfl⟩

lemma truncTowardZero_idem {d : ℕ} (hd : 0 < d) (x : ℚ) :
    truncTowardZero d (truncTowardZero d x) = truncTowardZero d x := by
  obtain ⟨k, hk⟩ := @truncTowardZero_eq_intCast_div d x
  rw [hk, truncTowardZero_intCast_div k hd]

lemma roundPrice_le {p : ℚ} (hp : 0 ≤ p) : roundPrice p ≤ p :=
  truncTowardZero_le (by norm_num) hp

lemma abs_sub_roundPrice_lt (p : ℚ) : |p - roundPrice p| < 1 / 100 :=
  abs_sub_truncTowardZero_lt (by norm_num) p

lemma sub_lt_roundPrice {p : ℚ} (hp : 0 ≤ p) : p - 1 / 100 < roundPrice p :=
  sub_lt_truncTowardZero (by norm_num) hp

lemma roundPrice_idem (p : ℚ) : roundPrice (roundPrice p) = roundPrice p :=
  truncTowardZero_idem (by norm_num) p

lemma roundQty_le {q : ℚ} (hq : 0 ≤ q) : roundQty q ≤ q :=
  truncTowardZero_le (by norm_num) hq

lemma sub_lt_roundQty {q : ℚ} (hq : 0 ≤ q) : q - 1 / 1000000 < roundQty q :=
  sub_lt_truncTowardZero (by norm_num) hq

/-! ## Grid construction: claims C2 and C3 -/

lemma buildPriceGrid_ne_nil (low high : ℚ) (levels : ℤ) :
    buildPriceGrid low high levels ≠ [] := by
  rw [buildPriceGrid]
  split
  · simp
  · intro h
    have h0mem : (0 : ℕ) ∈ List.range (levels.toNat + 1) := List.mem_range.mpr (Nat.succ_pos _)
    have hmem := List.mem_map_of_mem
      (fun i : ℕ => roundPrice (low + (i : ℚ) * ((high - low) / (levels : ℚ)))) h0mem
    have hdedup := List.mem_dedup.mpr hmem
    have hout := (List.perm_insertionSort (· ≤ ·) _).mem_iff.mpr hdedup
    rw [h] at hout
    exact List.not_mem_nil _ hout

lemma mem_buildPriceGrid {low high : ℚ} {levels : ℤ} (hl : 2 ≤ levels) {x : ℚ}
    (hx : x ∈ buildPriceGrid low high levels) :
    ∃ i : ℕ, i ≤ levels.toNat ∧ x = roundPrice (low + (i : ℚ) * ((high - low) / (levels : ℚ))) := by
  rw [buildPriceGrid, if_neg (by omega)] at hx
  have hx2 := List.mem_dedup.mp ((List.perm_insertionSort (· ≤ ·) _).mem_iff.mp hx)
  obtain ⟨i, hir, hival⟩ := List.mem_map.mp hx2
  have hir2 := List.mem_range.mp hir
  exact ⟨i, by omega, hival.symm⟩

/-- Claim C3, counterexample: degenerate inputs do not yield an empty sequence.
With `high = low` (and ten levels) the result is the singleton rounded level,
and with a single level (`levels < 2`) it is the two rounded endpoints. -/
theorem buildPriceGrid_degenerate_not_empty :
    buildPriceGrid 4000 4000 10 = [4000] ∧ buildPriceGrid 4000 4400 1 = [4000, 4400] := by
  constructor
  · norm_num [buildPriceGrid, List.range_succ, roundPrice, truncTowardZero_eq, Rat.floor_def,
      List.dedup_cons_of_mem, List.dedup_cons_of_not_mem, List.insertionSort, List.orderedInsert]
  · rw [buildPriceGrid, if_pos (by norm_num)]
    norm_num [roundPrice, truncTowardZero_eq, Rat.floor_def]

/-- Claim C3 (amended): `build_price_grid` never returns an empty sequence.
For fewer than two levels it returns the pair of rounded endpoints, and for
`high ≤ low` with at least two levels the sorted deduplicated rounded ladder,
which is still nonempty; the code has no degenerate-input guard. -/
theorem buildPriceGrid_never_returns_empty (low high : ℚ) (levels : ℤ) :
    buildPriceGrid low high levels ≠ [] :=
  buildPriceGrid_ne_nil low high levels

/-- Claim C2, counterexample: with `low = 1/200`, `high = 1`, `levels = 2`
(a valid input: `high > low`, positive step), the first element of the grid is
`0 < low`, refuting "first element is at least `low`". -/
theorem buildPriceGrid_first_elem_lt_low :
    (buildPriceGrid (1/200) 1 2).head? = some 0 ∧ (0 : ℚ) < 1/200 := by
  have hr : List.range ((2 : ℤ).toNat + 1) = [0, 1, 2] := by decide
  have h : buildPriceGrid (1/200) 1 2 = [0, 1/2, 1] := by
    rw [buildPriceGrid, if_neg (by norm_num), hr]
    norm_num [roundPrice, truncTowardZero_eq, Rat.floor_def, List.dedup_cons_of_mem,
      List.dedup_cons_of_not_mem, List.insertionSort, List.orderedInsert]
  rw [h]
  exact ⟨rfl, by norm_num⟩

/-- Claim C2 (amended): for `0 ≤ low < high` and at least two levels, the grid
is strictly ascending (hence duplicate-free), nonempty, and every element —
in particular the first and the last — lies in `(low - 0.01, high]`: the first
element is the truncation of `low` to the increment, so it can be up to one
increment below `low` (but never lower), and the last element is at most
`high`. -/
theorem buildPriceGrid_sorted_nodup_bounds (low high : ℚ) (levels : ℤ)
    (h0 : 0 ≤ low) (hlh : low < high) (hl : 2 ≤ levels) :
    buildPriceGrid low high levels ≠ [] ∧
    List.Pairwise (· < ·) (buildPriceGrid low high levels) ∧
    ∀ x ∈ buildPriceGrid low high levels, low - 1/100 < x ∧ x ≤ high := by
  have hlq : (0 : ℚ) < (levels : ℚ) := by
    have : (0 : ℤ) < levels := by omega
    exact_mod_cast this
  have hstep : 0 ≤ (high - low) / (levels : ℚ) :=
    le_of_lt (div_pos (by linarith) hlq)
  refine ⟨buildPriceGrid_ne_nil low high levels, ?_, ?_⟩
  · have hsorted : List.Sorted (· ≤ ·) (buildPriceGrid low high levels) := by
      rw [buildPriceGrid, if_neg (by omega)]
      exact List.sorted_insertionSort _ _
    have hnodup : (buildPriceGrid low high levels).Nodup := by
      rw [buildPriceGrid, if_neg (by omega)]
      exact ((List.perm_insertionSort (· ≤ ·) _).symm).nodup (List.nodup_dedup _)
    exact hsorted.lt_of_le hnodup
  · intro x hx
    obtain ⟨i, hile, hival⟩ := mem_buildPriceGrid hl hx
    have hstep0 : 0 ≤ (i : ℚ) * ((high - low) / (levels : ℚ)) :=
      mul_nonneg (Nat.cast_nonneg i) hstep
    have hiq : (i : ℚ) ≤ (levels : ℚ) := by
      have h1 : (i : ℤ) ≤ levels := by omega
      exact_mod_cast h1
    have hmul : (i : ℚ) * ((high - low) / (levels : ℚ)) ≤ high - low := by
      have h2 := mul_le_mul_of_nonneg_right hiq hstep
      have hcancel : (levels : ℚ) * ((high - low) / (levels : ℚ)) = high - low := by
        field_simp
      rwa [hcancel] at h2
    have hy0 : 0 ≤ low + (i : ℚ) * ((high - low) / (levels : ℚ)) := by linarith
    rw [hival]
    constructor
    · have h3 := sub_lt_roundPrice hy0
      linarith
    · have h4 := roundPrice_le hy0
      linarith

/-- Witness for `buildPriceGrid_sorted_nodup_bounds` at the default
configuration range `[4000, 4400]` with ten levels. -/
theorem buildPriceGrid_sorted_nodup_bounds_witness :
    ((0 : ℚ) ≤ 4000 ∧ (4000 : ℚ) < 4400 ∧ (2 : ℤ) ≤ 10) ∧
    List.Pairwise (· < ·) (buildPriceGrid 4000 4400 10) :=
  ⟨⟨by norm_num, by norm_num, by norm_num⟩,
    (buildPriceGrid_sorted_nodup_bounds 4000 4400 10 (by norm_num) (by norm_num)
      (by norm_num)).2.1⟩

/-! ## Startup validation: claim C9 -/

/-- Claim C9, counterexample: a degenerate range (`GRID_HIGH ≤ GRID_LOW`,
here 4000 ≤ 4400) is not a startup error.  With credentials present the
startup check succeeds, and the round still builds a (nonempty) grid from the
inverted range — the program enters the trading loop instead of aborting. -/
theorem startup_accepts_degenerate_range :
    startupCheck demoDegenerateConfig = Except.ok () ∧
    buildPriceGrid 4400 4000 10 ≠ [] := by
  constructor
  · rw [startupCheck, if_neg (by decide)]
  · exact buildPriceGrid_ne_nil 4400 4000 10

/-- Claim C9 (amended): the only fatal startup validation is the credential
check — startup errors out exactly on a missing (blank) API key or secret, and
with nonempty credentials it succeeds for every configured range, including
degenerate ones (`GRID_HIGH ≤ GRID_LOW` is never validated); in-loop failures
are caught at the round boundary in `loop_forever` and are not modelled here. -/
theorem startup_error_iff_missing_credentials :
    (∀ c : Config, (c.apcaApiKeyId = "" ∨ c.apcaApiSecretKey = "") →
      startupCheck c =
        Except.error ("Missing Alpaca API keys (APCA_API_KEY_ID / APCA_API_SECRET_KEY).")) ∧
    (∀ (k sk : String) (lo hi : ℚ) (lv : ℤ), k ≠ "" → sk ≠ "" →
      startupCheck (Config.mk k sk lo hi lv) = Except.ok ()) := by
  constructor
  · intro c hc
    rw [startupCheck, if_pos hc]
  · intro k sk lo hi lv hk hsk
    rw [startupCheck, if_neg (by simp [hk, hsk])]

/-- Witness for `startup_error_iff_missing_credentials`: a blank key aborts
startup; valid credentials with the degenerate range 4400-4000 do not. -/
theorem startup_error_iff_missing_credentials_witness :
    startupCheck demoMissingKeyConfig =
      Except.error ("Missing Alpaca API keys (APCA_API_KEY_ID / APCA_API_SECRET_KEY).") ∧
    startupCheck (Config.mk "k" "s" 4400 4000 10) = Except.ok () :=
  ⟨startup_error_iff_missing_credentials.1 _ (Or.inl rfl),
    startup_error_iff_missing_credentials.2 "k" "s" 4400 4000 10 (by decide) (by decide)⟩

/-! ## Buy correlation identifiers: claim C6 -/

/-- Claim C6, counterexample: two distinct submission attempts for the same
price level — two rounds with different remote open-order sets, level 4000
being unmatched in both — mint the identical correlation id
`"GRIDBUY-4000.00"`.  The id embeds the price but has no random component, so
distinct attempts do not carry distinct identifiers. -/
theorem gridBuyCid_not_unique_across_attempts :
    (ensureBuyGrid 4000 4400 [4000] (1/100) 50 []).map (fun o => o.clientOrderId) =
      ["GRIDBUY-4000.00"] ∧
    (ensureBuyGrid 4000 4400 [4000] (1/100) 50
        [demoOpenBuy4300]).map (fun o => o.clientOrderId) = ["GRIDBUY-4000.00"] := by
  constructor
  · with_unfolding_all decide
  · with_unfolding_all decide

/-- Claim C6 (amended): the correlation id of a grid-buy submission embeds the
rounded target price and nothing else: it is `"GRIDBUY-"` followed by the
price formatted to two decimals, with no random component, and it depends only
on the rounded price — so any two attempts for the same price level (in any
rounds) carry the same identifier. -/
theorem gridBuyCid_deterministic :
    gridBuyCid 4000 = "GRIDBUY-4000.00" ∧
    ∀ p : ℚ, gridBuyCid p = gridBuyCid (roundPrice p) := by
  constructor
  · with_unfolding_all decide
  · intro p
    rw [gridBuyCid, gridBuyCid, roundPrice_idem]

/-! ## Budget guard: claim C5 -/

/-- Claim C5, counterexample: `ensure_buy_grid` reads no account-cash value at
all (its submissions are determined by the grid, the open orders and the cap
alone), so with round-start cash 0 it still submits the level-4000 buy with
notional `4000 × 1 = 4000 > 0`, exceeding the cash reported at round start. -/
theorem ensureBuyGrid_notional_exceeds_cash :
    totalNotional (ensureBuyGrid 4000 4400 [4000] 1 50 []) = 4000 ∧ (0 : ℚ) < 4000 := by
  have h : ensureBuyGrid 4000 4400 [4000] 1 50 [] =
      [submitLimitBuy 1 4000 (gridBuyCid 4000)] := by
    with_unfolding_all rfl
  rw [h]
  constructor
  · simp [totalNotional, submitLimitBuy, roundPrice, roundQty]
    norm_num [truncTowardZero_eq, Rat.floor_def]
  · norm_num

/-- Claim C5 (amended): `ensure_buy_grid` performs no budget check: no cash
value is consulted before placement, and the cumulative notional of a round's
submissions is unconstrained by the account cash — for every cash amount
`C ≥ 0` reported at round start, a one-level round with quantity `C + 1`
already submits total notional exceeding `C`. -/
theorem ensureBuyGrid_no_budget_check (C : ℚ) (hC : 0 ≤ C) :
    C < totalNotional (ensureBuyGrid 4000 4400 [4000] (C + 1) 50 []) := by
  have h : ensureBuyGrid 4000 4400 [4000] (C + 1) 50 [] =
      [submitLimitBuy (C + 1) 4000 (gridBuyCid 4000)] := by
    with_unfolding_all rfl
  rw [h]
  have hq : C + 1 - 1/1000000 < roundQty (C + 1) := sub_lt_roundQty (by linarith)
  have hrp : roundPrice 4000 = 4000 := by
    norm_num [roundPrice, truncTowardZero_eq, Rat.floor_def]
  have ht : totalNotional [submitLimitBuy (C + 1) 4000 (gridBuyCid 4000)] =
      roundPrice 4000 * roundQty (C + 1) := by
    simp [totalNotional, submitLimitBuy]
  rw [ht, hrp]
  have h2 := mul_lt_mul_of_pos_left hq (by norm_num : (0 : ℚ) < 4000)
  linarith

/-- Witness for `ensureBuyGrid_no_budget_check` at cash 4000. -/
theorem ensureBuyGrid_no_budget_check_witness :
    (0 : ℚ) ≤ 4000 ∧
    (4000 : ℚ) < totalNotional (ensureBuyGrid 4000 4400 [4000] (4000 + 1) 50 []) :=
  ⟨by norm_num, ensureBuyGrid_no_budget_check 4000 (by norm_num)⟩

/-! ## Order reconciliation: claims C4 and C8 -/

lemma matchedBy_mono {eP eP2 : List ℚ} {eC eC2 : List String} {p : ℚ}
    (hP : ∀ x ∈ eP, x ∈ eP2) (hC : ∀ c ∈ eC, c ∈ eC2) :
    matchedBy eP eC p → matchedBy eP2 eC2 p := by
  rintro (⟨ep, hmem, habs⟩ | hcid)
  · exact Or.inl ⟨ep, hP ep hmem, habs⟩
  · exact Or.inr (hC _ hcid)

lemma buyLoop_eq_of_room (qty : ℚ) (eP : List ℚ) (eC : List String) (nOpen : ℕ)
    (maxOpen : ℤ) (wants : List ℚ) :
    ∀ created : ℕ,
    (nOpen : ℤ) + created + ((wants.filter fun p => decide (¬ matchedBy eP eC p)).length : ℤ)
        ≤ maxOpen →
    buyLoop qty eP eC nOpen maxOpen wants created =
      (wants.filter fun p => decide (¬ matchedBy eP eC p)).map
        (fun p => submitLimitBuy qty p (gridBuyCid p)) := by
  induction wants with
  | nil => intro created _; simp [buyLoop]
  | cons p rest ih =>
    intro created h
    by_cases hm : matchedBy eP eC p
    · rw [List.filter_cons_of_neg (by simp [hm])] at h ⊢
      simp only [buyLoop, if_pos hm]
      exact ih created h
    · rw [List.filter_cons_of_pos (by simp [hm])] at h ⊢
      have hlen : ((p :: rest.filter fun q => decide (¬ matchedBy eP eC q)).length : ℤ) =
          1 + ((rest.filter fun q => decide (¬ matchedBy eP eC q)).length : ℤ) := by
        simp [List.length_cons]; omega
      have hcap : ¬ (maxOpen ≤ (nOpen : ℤ) + created) := by
        rw [hlen] at h; omega
      simp only [buyLoop, if_neg hm, if_neg hcap, List.map_cons]
      congr 1
      apply ih (created + 1)
      rw [hlen] at h
      push_cast
      omega

lemma buyLoop_all_matched (qty : ℚ) (eP : List ℚ) (eC : List String) (nOpen : ℕ)
    (maxOpen : ℤ) (wants : List ℚ) :
    ∀ created : ℕ, (∀ p ∈ wants, matchedBy eP eC p) →
    buyLoop qty eP eC nOpen maxOpen wants created = [] := by
  induction wants with
  | nil => intro _ _; simp [buyLoop]
  | cons p rest ih =>
    intro created hall
    have hm : matchedBy eP eC p := hall p (List.mem_cons_self p rest)
    simp only [buyLoop, if_pos hm]
    exact ih created (fun q hq => hall q (List.mem_cons_of_mem p hq))

lemma buyLoop_mem {qty : ℚ} {eP : List ℚ} {eC : List String} {nOpen : ℕ} {maxOpen : ℤ}
    {wants : List ℚ} :
    ∀ {created : ℕ} {o : RemoteOrder}, o ∈ buyLoop qty eP eC nOpen maxOpen wants created →
    ∃ p, o = submitLimitBuy qty p (gridBuyCid p) := by
  induction wants with
  | nil => intro created o h; simp [buyLoop] at h
  | cons p rest ih =>
    intro created o h
    by_cases hm : matchedBy eP eC p
    · rw [show buyLoop qty eP eC nOpen maxOpen (p :: rest) created =
          buyLoop qty eP eC nOpen maxOpen rest created by simp only [buyLoop, if_pos hm]] at h
      exact ih h
    · by_cases hcap : maxOpen ≤ (nOpen : ℤ) + created
      · rw [show buyLoop qty eP eC nOpen maxOpen (p :: rest) created = [] by
          simp only [buyLoop, if_neg hm, if_pos hcap]] at h
        simp at h
      · rw [show buyLoop qty eP eC nOpen maxOpen (p :: rest) created =
            submitLimitBuy qty p (gridBuyCid p) ::
              buyLoop qty eP eC nOpen maxOpen rest (created + 1) by
          simp only [buyLoop, if_neg hm, if_neg hcap]] at h
        rcases List.mem_cons.mp h with h1 | h2
        · exact ⟨p, h1⟩
        · exact ih h2

lemma buyLoop_cap_or_matched (qty : ℚ) (eP : List ℚ) (eC : List String) (nOpen : ℕ)
    (maxOpen : ℤ) (wants : List ℚ) :
    ∀ created : ℕ,
    maxOpen ≤ (nOpen : ℤ) + created +
        ((buyLoop qty eP eC nOpen maxOpen wants created).length : ℤ) ∨
    ∀ p ∈ wants, matchedBy
      (eP ++ (buyLoop qty eP eC nOpen maxOpen wants created).filterMap (fun o => o.limitPrice))
      eC p := by
  induction wants with
  | nil => intro created; right; intro p hp; cases hp
  | cons p rest ih =>
    intro created
    by_cases hm : matchedBy eP eC p
    · rw [show buyLoop qty eP eC nOpen maxOpen (p :: rest) created =
          buyLoop qty eP eC nOpen maxOpen rest created by simp only [buyLoop, if_pos hm]]
      rcases ih created with hcap | hall
      · exact Or.inl hcap
      · right
        intro q hq
        rcases List.mem_cons.mp hq with rfl | hq2
        · exact matchedBy_mono (fun x hx => List.mem_append_left _ hx) (fun c hc => hc) hm
        · exact hall q hq2
    · by_cases hcap : maxOpen ≤ (nOpen : ℤ) + created
      · rw [show buyLoop qty eP eC nOpen maxOpen (p :: rest) created = [] by
          simp only [buyLoop, if_neg hm, if_pos hcap]]
        left
        simp only [List.length_nil]
        omega
      · rw [show buyLoop qty eP eC nOpen maxOpen (p :: rest) created =
            submitLimitBuy qty p (gridBuyCid p) ::
              buyLoop qty eP eC nOpen maxOpen rest (created + 1) by
          simp only [buyLoop, if_neg hm, if_neg hcap]]
        rcases ih (created + 1) with hcap2 | hall
        · left
          simp only [List.length_cons]
          push_cast at hcap2 ⊢
          omega
        · right
          intro q hq
          have hheadmem : roundPrice p ∈
              (submitLimitBuy qty p (gridBuyCid p) ::
                buyLoop qty eP eC nOpen maxOpen rest (created + 1)).filterMap
                (fun o => o.limitPrice) := by
            simp [List.filterMap_cons, submitLimitBuy]
          rcases List.mem_cons.mp hq with rfl | hq2
          · refine Or.inl ⟨roundPrice q, List.mem_append_right _ hheadmem, ?_⟩
            exact le_of_lt (abs_sub_roundPrice_lt q)
          · refine matchedBy_mono ?_ (fun c hc => hc) (hall q hq2)
            intro x hx
            rcases List.mem_append.mp hx with h1 | h2
            · exact List.mem_append_left _ h1
            · refine List.mem_append_right _ ?_
              rw [List.filterMap_cons]
              simp only [submitLimitBuy]
              exact List.mem_cons_of_mem _ h2

lemma eligibleLevels_eq (gridLow gridHigh : ℚ) (gridPrices : List ℚ)
    (oo : List RemoteOrder) :
    eligibleLevels gridLow gridHigh gridPrices oo =
      (gridPrices.filter (fun p => decide (p < (gridLow + gridHigh) / 2))).filter
        (fun p => decide (¬ matchedBy
          ((oo.filter (fun o => decide (o.side = Side.buy))).filterMap (fun o => o.limitPrice))
          (((oo.filter (fun o => decide (o.side = Side.buy))).map
            (fun o => o.clientOrderId)).filter (fun c => decide (c ≠ ""))) p)) := rfl

/-- Claim C4, counterexample: the desired level 4360 (within the 4000-4400
range, above the midpoint 4200) has no matching open buy order, yet
`ensure_buy_grid` submits nothing: only levels strictly below the midpoint of
the configured range are ever placed. -/
theorem ensureBuyGrid_skips_level_above_mid :
    ensureBuyGrid 4000 4400 [4360] (1/100) 50 [] = [] ∧ ¬ matchedBy [] [] 4360 := by
  constructor
  · with_unfolding_all decide
  · rintro (⟨ep, hep, _⟩ | hc)
    · exact absurd hep (List.not_mem_nil _)
    · exact absurd hc (List.not_mem_nil _)

/-- Claim C4 (amended): provided the `MAX_OPEN_BUYS` cap leaves room,
`ensure_buy_grid` submits exactly one limit buy for every desired level
strictly below the configured range midpoint that lacks a matching open buy
(price within the `0.01` increment or identical correlation id), in input
order — ascending when the grid is ascending; levels at or above the midpoint
are never submitted. -/
theorem ensureBuyGrid_submits_unmatched_below_mid (gridLow gridHigh qtyPerLevel : ℚ)
    (gridPrices : List ℚ) (maxOpen : ℤ) (oo : List RemoteOrder)
    (hsorted : List.Pairwise (· ≤ ·) gridPrices)
    (hcap : ((oo.filter (fun o => decide (o.side = Side.buy))).length : ℤ) +
      ((eligibleLevels gridLow gridHigh gridPrices oo).length : ℤ) ≤ maxOpen) :
    ensureBuyGrid gridLow gridHigh gridPrices qtyPerLevel maxOpen oo =
      (eligibleLevels gridLow gridHigh gridPrices oo).map
        (fun p => submitLimitBuy qtyPerLevel p (gridBuyCid p)) ∧
    List.Pairwise (· ≤ ·) (eligibleLevels gridLow gridHigh gridPrices oo) := by
  constructor
  · by_cases hguard : maxOpen ≤
        (((oo.filter (fun o => decide (o.side = Side.buy))).length : ℕ) : ℤ)
    · have hlen0 : (eligibleLevels gridLow gridHigh gridPrices oo).length = 0 := by omega
      have hnil : eligibleLevels gridLow gridHigh gridPrices oo = [] :=
        List.length_eq_zero.mp hlen0
      rw [hnil, List.map_nil]
      simp only [ensureBuyGrid]
      rw [if_pos hguard]
    · simp only [ensureBuyGrid]
      rw [if_neg hguard]
      rw [buyLoop_eq_of_room _ _ _ _ _ _ 0 (by rw [← eligibleLevels_eq]; push_cast; omega)]
      rw [← eligibleLevels_eq]
  · rw [eligibleLevels_eq]
    exact (hsorted.filter _).filter _

/-- Witness for `ensureBuyGrid_submits_unmatched_below_mid`: an ascending
two-level grid below the midpoint against an empty remote book. -/
theorem ensureBuyGrid_submits_unmatched_below_mid_witness :
    (((([] : List RemoteOrder).filter (fun o => decide (o.side = Side.buy))).length : ℤ) +
      ((eligibleLevels 4000 4400 [4000, 4100] []).length : ℤ) ≤ 50) ∧
    ensureBuyGrid 4000 4400 [4000, 4100] (1/100) 50 [] =
      (eligibleLevels 4000 4400 [4000, 4100] []).map
        (fun p => submitLimitBuy (1/100) p (gridBuyCid p)) :=
  ⟨by with_unfolding_all decide,
    (ensureBuyGrid_submits_unmatched_below_mid 4000 4400 (1/100) [4000, 4100] 50 []
      (by decide) (by with_unfolding_all decide)).1⟩

/-- Claim C8: the reconciler is idempotent.  If `ensure_buy_grid` runs once
and then runs again with no remote change other than its own submissions now
being visible among the open orders, the second run submits zero orders:
every level placed in the first run now matches by price (within one
increment), every level skipped as matched is still matched, and if the first
run stopped at the cap, the second run's open-buy count meets the cap at
entry. -/
theorem ensureBuyGrid_idempotent (gridLow gridHigh qtyPerLevel : ℚ)
    (gridPrices : List ℚ) (maxOpen : ℤ) (oo : List RemoteOrder) :
    ensureBuyGrid gridLow gridHigh gridPrices qtyPerLevel maxOpen
      (oo ++ ensureBuyGrid gridLow gridHigh gridPrices qtyPerLevel maxOpen oo) = [] := by
  by_cases hguard : maxOpen ≤
      (((oo.filter (fun o => decide (o.side = Side.buy))).length : ℕ) : ℤ)
  · have h1 : ensureBuyGrid gridLow gridHigh gridPrices qtyPerLevel maxOpen oo = [] := by
      simp only [ensureBuyGrid]
      rw [if_pos hguard]
    rw [h1, List.append_nil, h1]
  · have hunfold : ensureBuyGrid gridLow gridHigh gridPrices qtyPerLevel maxOpen oo =
        buyLoop qtyPerLevel
          ((oo.filter (fun o => decide (o.side = Side.buy))).filterMap (fun o => o.limitPrice))
          (((oo.filter (fun o => decide (o.side = Side.buy))).map
            (fun o => o.clientOrderId)).filter (fun c => decide (c ≠ "")))
          (oo.filter (fun o => decide (o.side = Side.buy))).length maxOpen
          (gridPrices.filter (fun p => decide (p < (gridLow + gridHigh) / 2))) 0 := by
      simp only [ensureBuyGrid]
      rw [if_neg hguard]
    rw [hunfold]
    set wants := gridPrices.filter (fun p => decide (p < (gridLow + gridHigh) / 2)) with hw
    set B := oo.filter (fun o => decide (o.side = Side.buy)) with hB
    set eP := B.filterMap (fun o => o.limitPrice) with heP
    set eC := (B.map (fun o => o.clientOrderId)).filter (fun c => decide (c ≠ "")) with heC
    set new := buyLoop qtyPerLevel eP eC B.length maxOpen wants 0 with hnew
    have hnewbuy : new.filter (fun o => decide (o.side = Side.buy)) = new := by
      apply List.filter_eq_self.mpr
      intro o ho
      obtain ⟨p, rfl⟩ := buyLoop_mem (hnew ▸ ho)
      simp [submitLimitBuy]
    simp only [ensureBuyGrid, List.filter_append]
    rw [← hB, hnewbuy]
    rw [List.length_append]
    by_cases hguard2 : maxOpen ≤ ((B.length + new.length : ℕ) : ℤ)
    · rw [if_pos hguard2]
    · rw [if_neg hguard2]
      rw [List.filterMap_append, List.map_append, List.filter_append]
      rw [← heP, ← heC]
      apply buyLoop_all_matched
      intro p hp
      rcases buyLoop_cap_or_matched qtyPerLevel eP eC B.length maxOpen wants 0 with hcap | hall
      · exfalso
        apply hguard2
        rw [← hnew] at hcap
        push_cast at hcap ⊢
        omega
      · rw [← hnew] at hall
        exact matchedBy_mono (fun x hx => hx) (fun c hc => List.mem_append_left _ hc) (hall p hp)

/-! ## Fill-to-take-profit linkage: claims C1 and C10 -/

lemma isPrefixOf_append_self (l1 l2 : List Char) : l1.isPrefixOf (l1 ++ l2) = true := by
  induction l1 with
  | nil => simp [List.isPrefixOf]
  | cons c rest ih => simp [List.isPrefixOf, ih]

lemma pyStartsWith_append (pre b : String) : pyStartsWith (pre ++ b) pre = true := by
  rw [pyStartsWith, String.toList, String.toList, String.data_append]
  exact isPrefixOf_append_self _ _

lemma gridtp_append_ne_empty (b : String) : ("GRIDTP-" ++ b) ≠ "" := by
  intro hx
  have hd := congrArg String.data hx
  rw [String.data_append] at hd
  have hnil : ("GRIDTP-" : String).data = [] ∧ b.data = [] := by
    rw [← List.append_eq_nil]
    exact hd
  exact absurd hnil.1 (by decide)

lemma ensureTp_eq_filterMap (tpPct : ℚ) (closed : List ClosedOrder)
    (oo : List RemoteOrder) :
    ensureTpAfterFills tpPct closed oo =
      (listFilledGridBuys closed).filterMap (tpForFill tpPct (openTpKeys oo)) := by
  rw [ensureTpAfterFills]
  split
  · next hempty =>
    rw [List.isEmpty_iff.mp hempty]
    rfl
  · rfl

lemma tpForFill_some {tpPct : ℚ} {keys : List String} {o : ClosedOrder} {tp : RemoteOrder}
    (h : tpForFill tpPct keys o = some tp) :
    o.clientOrderId ≠ "" ∧ o.clientOrderId ∉ keys ∧
    ∃ q f : ℚ, o.filledQty = some q ∧ o.filledAvgPrice = some f ∧ 0 < q ∧ 0 < f ∧
      tp = submitLimitSell q (tpPrice f tpPct) ("GRIDTP-" ++ o.clientOrderId) := by
  rw [tpForFill] at h
  split at h
  · exact absurd h (by simp)
  · next hcond =>
    push_neg at hcond
    refine ⟨hcond.1, hcond.2, ?_⟩
    split at h
    · exact absurd h (by simp)
    · split at h
      · next q f hq hf =>
        split at h
        · exact absurd h (by simp)
        · next hpos =>
          push_neg at hpos
          exact ⟨q, f, hq, hf, hpos.1, hpos.2, (Option.some.injEq _ _ ▸ h).symm⟩
      · exact absurd h (by simp)

lemma mem_ensureTpAfterFills {tpPct : ℚ} {closed : List ClosedOrder}
    {oo : List RemoteOrder} {tp : RemoteOrder}
    (h : tp ∈ ensureTpAfterFills tpPct closed oo) :
    ∃ o ∈ listFilledGridBuys closed, tpForFill tpPct (openTpKeys oo) o = some tp := by
  rw [ensureTp_eq_filterMap] at h
  exact List.mem_filterMap.mp h

lemma openTpKeys_append (s t : List RemoteOrder) :
    openTpKeys (s ++ t) = openTpKeys s ++ openTpKeys t := by
  simp [openTpKeys, listOpenTpOrders, List.filter_append]

lemma tpKey_mem_openTpKeys {o : RemoteOrder} {s : List RemoteOrder} (ho : o ∈ s)
    (h1 : o.clientOrderId ≠ "") (h2 : pyStartsWith o.clientOrderId ("GRIDTP-") = true) :
    tpKey o.clientOrderId ∈ openTpKeys s := by
  rw [openTpKeys, listOpenTpOrders, List.map_map]
  refine List.mem_map.mpr ⟨o, List.mem_filter.mpr ⟨ho, ?_⟩, rfl⟩
  simp [h1, h2]

lemma map_filterMap_sublist {α β γ : Type _} (f : α → Option β) (g : β → γ) (h : α → γ)
    (l : List α) (H : ∀ a ∈ l, ∀ b, f a = some b → g b = h a) :
    ((l.filterMap f).map g).Sublist (l.map h) := by
  induction l with
  | nil => simp
  | cons a rest ih =>
    rw [List.filterMap_cons]
    cases hfa : f a with
    | none =>
      simp only [List.map_cons]
      exact (ih (fun x hx b hb => H x (List.mem_cons_of_mem _ hx) b hb)).cons _
    | some b =>
      simp only [List.map_cons]
      rw [H a (List.mem_cons_self _ _) b hfa]
      exact (ih (fun x hx c hc => H x (List.mem_cons_of_mem _ hx) c hc)).cons₂ _

lemma ensureTp_new_all_tagged {tpPct : ℚ} {closed : List ClosedOrder}
    {oo : List RemoteOrder} :
    ∀ tp ∈ ensureTpAfterFills tpPct closed oo,
      tp.clientOrderId ≠ "" ∧ pyStartsWith tp.clientOrderId ("GRIDTP-") = true := by
  intro tp htp
  obtain ⟨o, ho, hsome⟩ := mem_ensureTpAfterFills htp
  obtain ⟨hne, hnk, q, f, _, _, _, _, rfl⟩ := tpForFill_some hsome
  exact ⟨gridtp_append_ne_empty _, pyStartsWith_append _ _⟩

lemma openTpKeys_of_all_tagged {l : List RemoteOrder}
    (h : ∀ o ∈ l, o.clientOrderId ≠ "" ∧ pyStartsWith o.clientOrderId ("GRIDTP-") = true) :
    openTpKeys l = l.map (fun o => tpKey o.clientOrderId) := by
  rw [openTpKeys, listOpenTpOrders, List.map_map]
  rw [List.filter_eq_self.mpr (fun o ho => by simp [(h o ho).1, (h o ho).2])]
  rfl

lemma ensureTp_step (tpPct : ℚ) (closed : List ClosedOrder) (s : List RemoteOrder)
    (hkeys : ∀ o ∈ listFilledGridBuys closed,
      tpKey ("GRIDTP-" ++ o.clientOrderId) = o.clientOrderId)
    (hinv : (openTpKeys s).Nodup)
    (hnodup : ((listFilledGridBuys closed).map (fun o => o.clientOrderId)).Nodup) :
    (openTpKeys (s ++ ensureTpAfterFills tpPct closed s)).Nodup ∧
    ∀ tp ∈ ensureTpAfterFills tpPct closed s,
      ∀ o ∈ s, o.clientOrderId ≠ tp.clientOrderId := by
  have hkeyval : ∀ tp ∈ ensureTpAfterFills tpPct closed s,
      tpKey tp.clientOrderId ∉ openTpKeys s := by
    intro tp htp
    obtain ⟨o, ho, hsome⟩ := mem_ensureTpAfterFills htp
    obtain ⟨hne, hnk, q, f, _, _, _, _, rfl⟩ := tpForFill_some hsome
    have : tpKey ("GRIDTP-" ++ o.clientOrderId) = o.clientOrderId := hkeys o ho
    simpa [submitLimitSell, this] using hnk
  constructor
  · rw [openTpKeys_append, List.nodup_append]
    refine ⟨hinv, ?_, ?_⟩
    · rw [openTpKeys_of_all_tagged ensureTp_new_all_tagged]
      rw [ensureTp_eq_filterMap]
      refine List.Nodup.sublist ?_ hnodup
      apply map_filterMap_sublist
      intro o ho tp hsome
      obtain ⟨hne, hnk, q, f, _, _, _, _, rfl⟩ := tpForFill_some hsome
      exact hkeys o ho
    · intro k hk1 hk2
      rw [openTpKeys_of_all_tagged ensureTp_new_all_tagged] at hk2
      obtain ⟨tp, htp, rfl⟩ := List.mem_map.mp hk2
      exact hkeyval tp htp hk1
  · intro tp htp o2 ho2 heq
    obtain ⟨o, ho, hsome⟩ := mem_ensureTpAfterFills htp
    obtain ⟨hne, hnk, q, f, _, _, _, _, rfl⟩ := tpForFill_some hsome
    have hcid : o2.clientOrderId = "GRIDTP-" ++ o.clientOrderId := heq
    have hmem : tpKey o2.clientOrderId ∈ openTpKeys s :=
      tpKey_mem_openTpKeys ho2 (by rw [hcid]; exact gridtp_append_ne_empty _)
        (by rw [hcid]; exact pyStartsWith_append _ _)
    rw [hcid, hkeys o ho] at hmem
    exact hnk hmem

/-- Claim C1: over any number of rounds against the same set of closed orders,
`ensure_tp_after_fills` never yields two open take-profit orders correlated to
the same buy identifier (the per-order keys of the open-TP map stay
duplicate-free), and a TP sell is submitted for a filled buy only if no open
order already carries the correlation id `"GRIDTP-" ++ buyId` — matching is by
identifier correlation, not price.  Hypotheses: the broker-unique buy
correlation ids are pairwise distinct, and splitting `"GRIDTP-" ++ buyId` on
`"GRIDTP-"` recovers `buyId` (true of every `GRIDBUY-...` id). -/
theorem ensureTp_at_most_one_tp_per_buy (tpPct : ℚ) (closed : List ClosedOrder)
    (hkeys : ∀ o ∈ listFilledGridBuys closed,
      tpKey ("GRIDTP-" ++ o.clientOrderId) = o.clientOrderId)
    (hnodup : ((listFilledGridBuys closed).map (fun o => o.clientOrderId)).Nodup) :
    ∀ (n : ℕ) (s : List RemoteOrder), (openTpKeys s).Nodup →
      (openTpKeys (tpRounds tpPct closed n s)).Nodup ∧
      ∀ tp ∈ ensureTpAfterFills tpPct closed (tpRounds tpPct closed n s),
        ∀ o ∈ tpRounds tpPct closed n s, o.clientOrderId ≠ tp.clientOrderId := by
  intro n
  induction n with
  | zero =>
    intro s hinv
    exact ⟨hinv, (ensureTp_step tpPct closed s hkeys hinv hnodup).2⟩
  | succ n ih =>
    intro s hinv
    simp only [tpRounds]
    exact ih _ (ensureTp_step tpPct closed s hkeys hinv hnodup).1

/-- Witness for `ensureTp_at_most_one_tp_per_buy`: one filled grid buy, two
rounds starting from no open orders. -/
theorem ensureTp_at_most_one_tp_per_buy_witness :
    (tpKey ("GRIDTP-" ++ "GRIDBUY-4000.00") = "GRIDBUY-4000.00") ∧
    (openTpKeys (tpRounds (1/2) [demoFilledBuy] 2 [])).Nodup :=
  ⟨by decide,
    (ensureTp_at_most_one_tp_per_buy (1/2) [demoFilledBuy] (by decide) (by decide) 2 []
      (by decide)).1⟩

/-- Claim C10: every take-profit sell submitted by `ensure_tp_after_fills` is
a sell order whose quantity is the originating buy's filled quantity truncated
to the `0.000001` increment (hence never exceeding it), and it is submitted
only when both the parsed filled quantity and filled average price of the
originating buy are strictly positive. -/
theorem ensureTp_qty_matches_fill (tpPct : ℚ) (closed : List ClosedOrder)
    (oo : List RemoteOrder) :
    ∀ tp ∈ ensureTpAfterFills tpPct closed oo,
      ∃ o ∈ listFilledGridBuys closed, ∃ q f : ℚ,
        o.filledQty = some q ∧ o.filledAvgPrice = some f ∧ 0 < q ∧ 0 < f ∧
        tp.side = Side.sell ∧ tp.qty = roundQty q ∧ tp.qty ≤ q := by
  intro tp htp
  obtain ⟨o, ho, hsome⟩ := mem_ensureTpAfterFills htp
  obtain ⟨hne, hnk, q, f, hq, hf, hqpos, hfpos, rfl⟩ := tpForFill_some hsome
  exact ⟨o, ho, q, f, hq, hf, hqpos, hfpos, rfl, rfl, roundQty_le (le_of_lt hqpos)⟩

/-- Witness for `ensureTp_qty_matches_fill`: the demo filled buy produces one
TP sell, whose quantity is the rounded filled quantity. -/
theorem ensureTp_qty_matches_fill_witness :
    (submitLimitSell (1/100) (tpPrice 4000 (1/2)) ("GRIDTP-" ++ "GRIDBUY-4000.00") ∈
      ensureTpAfterFills (1/2) [demoFilledBuy] []) ∧
    ∃ o ∈ listFilledGridBuys [demoFilledBuy], ∃ q f : ℚ,
      o.filledQty = some q ∧ o.filledAvgPrice = some f ∧ 0 < q ∧ 0 < f ∧
      (submitLimitSell (1/100) (tpPrice 4000 (1/2))
          ("GRIDTP-" ++ "GRIDBUY-4000.00")).side = Side.sell ∧
      (submitLimitSell (1/100) (tpPrice 4000 (1/2))
          ("GRIDTP-" ++ "GRIDBUY-4000.00")).qty = roundQty q ∧
      (submitLimitSell (1/100) (tpPrice 4000 (1/2))
          ("GRIDTP-" ++ "GRIDBUY-4000.00")).qty ≤ q := by
  have hE : ensureTpAfterFills (1/2) [demoFilledBuy] [] =
      [submitLimitSell (1/100) (tpPrice 4000 (1/2)) ("GRIDTP-" ++ "GRIDBUY-4000.00")] := by
    with_unfolding_all rfl
  have hmem : submitLimitSell (1/100) (tpPrice 4000 (1/2)) ("GRIDTP-" ++ "GRIDBUY-4000.00") ∈
      ensureTpAfterFills (1/2) [demoFilledBuy] [] := by
    rw [hE]
    exact List.mem_singleton.mpr rfl
  exact ⟨hmem, ensureTp_qty_matches_fill (1/2) [demoFilledBuy] [] _ hmem⟩

/-! ## Take-profit arithmetic: claim C7 -/

lemma mkRat_one_two : mkRat 1 2 = (1 : ℚ)/2 := by
  rw [Rat.mkRat_eq_div]
  norm_num

lemma sig53_eq_up {s : ℚ} {m : ℤ} (hm : ⌊s⌋ = m) (h1 : 1/2 < s - (m : ℚ)) :
    sig53 s = m + 1 := by
  simp only [sig53, hm, mkRat_int_one, mkRat_one_two]
  rw [if_neg (by linarith), if_pos h1]

lemma sig53_eq_down {s : ℚ} {m : ℤ} (hm : ⌊s⌋ = m) (h1 : s - (m : ℚ) < 1/2) :
    sig53 s = m := by
  simp only [sig53, hm, mkRat_int_one, mkRat_one_two]
  rw [if_pos h1]

lemma fl53_pos_eq {x : ℚ} (hx : 0 < x) {e : ℤ} (he : exp2Floor x = e) {m2 : ℤ}
    (hsig : sig53 (x * pow2 (52 - e)) = m2) :
    fl53 x = (m2 : ℚ) * pow2 (e - 52) := by
  simp only [fl53]
  rw [if_neg hx.ne', abs_of_pos hx, he, hsig, mkRat_int_one,
    if_neg (not_lt.mpr (le_of_lt hx)), one_mul]

lemma pow2_sixty : pow2 60 = 1152921504606846976 := by
  rw [pow2, if_pos (by norm_num), mkRat_int_one]
  rw [show Int.toNat 60 = 60 from rfl]
  norm_num

lemma pow2_neg_sixty : pow2 (-60) = 1/1152921504606846976 := by
  rw [pow2, if_neg (by norm_num), Rat.mkRat_eq_div]
  rw [show Int.toNat (-(-60 : ℤ)) = 60 from rfl]
  norm_num

lemma fl53_one_over_200 :
    fl53 ((1 : ℚ)/200) = 5764607523034235/1152921504606846976 := by
  have he : exp2Floor ((1 : ℚ)/200) = -8 := by with_unfolding_all decide
  have hm : ⌊(1 : ℚ)/200 * pow2 (52 - (-8))⌋ = 5764607523034234 := by
    rw [show (52 - (-8) : ℤ) = 60 from by norm_num, pow2_sixty]
    rw [show (1 : ℚ)/200 * 1152921504606846976 = 144115188075855872/25 from by norm_num]
    rw [Rat.floor_def]
    norm_num
  have hsig : sig53 ((1 : ℚ)/200 * pow2 (52 - (-8))) = 5764607523034235 := by
    have h1 : (1 : ℚ)/2 < (1 : ℚ)/200 * pow2 (52 - (-8)) - ((5764607523034234 : ℤ) : ℚ) := by
      rw [show (52 - (-8) : ℤ) = 60 from by norm_num, pow2_sixty]
      norm_num
    exact sig53_eq_up hm h1
  rw [fl53_pos_eq (by norm_num) he hsig]
  rw [show ((-8 : ℤ) - 52) = -60 from by norm_num, pow2_neg_sixty]
  norm_num

lemma pow2_fifty_two : pow2 52 = 4503599627370496 := by
  rw [pow2, if_pos (by norm_num), mkRat_int_one]
  rw [show Int.toNat 52 = 52 from rfl]
  norm_num

lemma pow2_neg_fifty_two : pow2 (-52) = 1/4503599627370496 := by
  rw [pow2, if_neg (by norm_num), Rat.mkRat_eq_div]
  rw [show Int.toNat (-(-52 : ℤ)) = 52 from rfl]
  norm_num

lemma fl53_one_plus :
    fl53 ((1158686112129881211 : ℚ)/1152921504606846976) =
      4526117625507348/4503599627370496 := by
  have he : exp2Floor ((1158686112129881211 : ℚ)/1152921504606846976) = 0 := by
    with_unfolding_all decide
  have hm : ⌊(1158686112129881211 : ℚ)/1152921504606846976 * pow2 (52 - 0)⌋ =
      4526117625507348 := by
    rw [show (52 - 0 : ℤ) = 52 from by norm_num, pow2_fifty_two]
    rw [show (1158686112129881211 : ℚ)/1152921504606846976 * 4503599627370496 =
      1158686112129881211/256 from by norm_num]
    rw [Rat.floor_def]
    norm_num
  have hsig : sig53 ((1158686112129881211 : ℚ)/1152921504606846976 * pow2 (52 - 0)) =
      4526117625507348 := by
    have h1 : (1158686112129881211 : ℚ)/1152921504606846976 * pow2 (52 - 0) -
        ((4526117625507348 : ℤ) : ℚ) < 1/2 := by
      rw [show (52 - 0 : ℤ) = 52 from by norm_num, pow2_fifty_two]
      norm_num
    exact sig53_eq_down hm h1
  rw [fl53_pos_eq (by norm_num) he hsig]
  rw [show ((0 : ℤ) - 52) = -52 from by norm_num, pow2_neg_fifty_two]
  norm_num

lemma pow2_forty_one : pow2 41 = 2199023255552 := by
  rw [pow2, if_pos (by norm_num), mkRat_int_one]
  rw [show Int.toNat 41 = 41 from rfl]
  norm_num

lemma pow2_neg_forty_one : pow2 (-41) = 1/2199023255552 := by
  rw [pow2, if_neg (by norm_num), Rat.mkRat_eq_div]
  rw [show Int.toNat (-(-41 : ℤ)) = 41 from rfl]
  norm_num

lemma fl53_product :
    fl53 ((565764703188418500 : ℚ)/140737488355328) = 8840073487319039/2199023255552 := by
  have he : exp2Floor ((565764703188418500 : ℚ)/140737488355328) = 11 := by
    with_unfolding_all decide
  have hm : ⌊(565764703188418500 : ℚ)/140737488355328 * pow2 (52 - 11)⌋ =
      8840073487319039 := by
    rw [show (52 - 11 : ℤ) = 41 from by norm_num, pow2_forty_one]
    rw [show (565764703188418500 : ℚ)/140737488355328 * 2199023255552 =
      565764703188418500/64 from by norm_num]
    rw [Rat.floor_def]
    norm_num
  have hsig : sig53 ((565764703188418500 : ℚ)/140737488355328 * pow2 (52 - 11)) =
      8840073487319039 := by
    have h1 : (565764703188418500 : ℚ)/140737488355328 * pow2 (52 - 11) -
        ((8840073487319039 : ℤ) : ℚ) < 1/2 := by
      rw [show (52 - 11 : ℤ) = 41 from by norm_num, pow2_forty_one]
      norm_num
    exact sig53_eq_down hm h1
  rw [fl53_pos_eq (by norm_num) he hsig]
  rw [show ((11 : ℤ) - 52) = -41 from by norm_num, pow2_neg_forty_one]
  norm_num

lemma tpPriceFloat_4000_eq : tpPriceFloat 4000 (1/2) = 4019.99 := by
  rw [tpPriceFloat]
  rw [show ((1 : ℚ)/2)/100 = 1/200 from by norm_num, fl53_one_over_200]
  rw [show (1 : ℚ) + 5764607523034235/1152921504606846976 =
    1158686112129881211/1152921504606846976 from by norm_num, fl53_one_plus]
  rw [show (4000 : ℚ) * (4526117625507348/4503599627370496) =
    565764703188418500/140737488355328 from by norm_num, fl53_product]
  rw [roundPrice, truncTowardZero_eq, if_pos (by norm_num)]
  push_cast
  rw [show (8840073487319039 : ℚ)/2199023255552 * 100 =
    884007348731903900/2199023255552 from by norm_num]
  rw [Rat.floor_def]
  norm_num

/-- Claim C7, counterexample: in the binary64 arithmetic the Python expression
`fill_price * (1.0 + tp_pct / 100.0)` actually performs, the product for fill
4000 and `TP_PCT = 0.5` is the double 4019.99999999999954525…, just below
4020 (because `1.0 + 0.5/100.0` rounds down to 1.004999999999999893…), so
`round_price` truncates the take-profit price to 4019.99, not exactly
4020.00. -/
theorem tpPriceFloat_4000_not_4020 :
    tpPriceFloat 4000 (1/2) = 4019.99 ∧ tpPriceFloat 4000 (1/2) ≠ 4020 := by
  refine ⟨tpPriceFloat_4000_eq, ?_⟩
  rw [tpPriceFloat_4000_eq]
  norm_num

/-- Claim C7 (amended): the take-profit price is the truncation (never a
round-up) of the binary64 product `fill_price * (1.0 + tp_pct/100.0)`; for
fill 4000 and `TP_PCT = 0.5` the computed price is 4019.99 — one increment
below the 4020.00 that exact rational arithmetic (`tpPrice`) yields, because
the float product lies just below 4020. -/
theorem tpPrice_truncated_and_float_value :
    tpPriceFloat 4000 (1/2) = 4019.99 ∧ tpPrice 4000 (1/2) = 4020 ∧
    ∀ x : ℚ, 0 ≤ x → roundPrice x ≤ x :=
  ⟨tpPriceFloat_4000_eq,
    by norm_num [tpPrice, roundPrice, truncTowardZero_eq, Rat.floor_def],
    fun x hx => roundPrice_le hx⟩

/-- Witness for `tpPrice_truncated_and_float_value`: truncation never rounds
up at 4020. -/
theorem tpPrice_truncated_and_float_value_witness :
    (0 : ℚ) ≤ 4020 ∧ roundPrice 4020 ≤ 4020 :=
  ⟨by norm_num, tpPrice_truncated_and_float_value.2.2 4020 (by norm_num)⟩
